import Mathlib

/-!
Verification of the progressive columnar data pipeline of the siqc repository:
the column codec and container packer (`packColumnaryBinary`, `transformDataFrame`),
the container reader (`parseHeader`, `extractColumn` in `loader.worker.ts`), the
decompression worker message handler (`self.onmessage`), and the client facade
(`DataLoader` in `data-loader.ts`).

The JavaScript/TypeScript sources are shallowly embedded as executable Lean
definitions.  JavaScript scalar values are modelled by `SIQC.JsVal` (finite
numbers as rationals; `NaN`/`Infinity` and non-scalar values are outside the
modelled domain and are noted where relevant).  Machine 32-bit conversions are
modelled with explicit `% 2^32` arithmetic.  Two platform primitives that no
claim depends on bit-for-bit are passed in as explicit function parameters
(`JsEnv`): the IEEE-754 binary32 bit pattern of a rounded float, and string to
number parsing; everything else is defined concretely from the source.
-/

namespace SIQC

/-- A JavaScript scalar value: `null`, `undefined`, booleans, finite numbers
(modelled as rationals), and strings.  This is the value domain of the data
columns handled by the pipeline. -/
inductive JsVal where
| null
| undef
| bool (b : Bool)
| num (q : ℚ)
| str (s : String)
deriving DecidableEq, Repr

/-- Platform primitives that the packer uses but whose bit-level behaviour no
claim depends on: `f32bits q` is the little-endian bit pattern of `q` rounded
to IEEE-754 binary32 (what `Float32Array` stores), `toNumberStr` is JavaScript
`ToNumber` on strings (`none` models `NaN`), and `parseFloatStr` is
`parseFloat` on strings (`none` models `NaN`). -/
structure JsEnv where
  f32bits : ℚ → ℕ
  toNumberStr : String → Option ℚ
  parseFloatStr : String → Option ℚ

/-- Truncation of a rational toward zero, as JavaScript number-to-integer
conversion does before wrapping. -/
def jsTruncQ (q : ℚ) : ℤ := if 0 ≤ q then ⌊q⌋ else -⌊-q⌋

/-- Wrap an integer into the signed 32-bit range, as the `ToInt32` step of a
JavaScript `Int32Array` element conversion does. -/
def toInt32 (n : ℤ) : ℤ :=
  let m := n.emod 4294967296
  if m < 2147483648 then m else m - 4294967296

/-- JavaScript `Int32Array` element conversion (`ToNumber` followed by
`ToInt32`) on a scalar value: `null` and `undefined` coerce to `0`, booleans
to `0`/`1`, numbers are truncated and wrapped, strings go through `ToNumber`
(non-numeric strings give `NaN` and hence `0`). -/
def jsToInt32 (env : JsEnv) : JsVal → ℤ
| .null => 0
| .undef => 0
| .bool b => if b then 1 else 0
| .num q => toInt32 (jsTruncQ q)
| .str s =>
    match env.toNumberStr s with
    | none => 0
    | some q => toInt32 (jsTruncQ q)

/-- JavaScript `parseFloat(v) || 0` as used by the packer's float32 fallback
branch: `null`, `undefined` and booleans stringify to non-numeric text and
give `0`; finite numbers round-trip; strings are parsed with `NaN` replaced
by `0`. -/
def jsParseFloatOr0 (env : JsEnv) : JsVal → ℚ
| .null => 0
| .undef => 0
| .bool _ => 0
| .num q => q
| .str s => (env.parseFloatStr s).getD 0

/-- Concatenation of the images of a list, used to model per-element byte
serialisation loops. -/
def concatMap (f : α → List β) : List α → List β
| [] => []
| a :: as => f a ++ concatMap f as

theorem concatMap_length_const (f : α → List β) (k : ℕ)
    (hf : ∀ a, (f a).length = k) : ∀ l : List α, (concatMap f l).length = k * l.length := by
  intro l
  induction l with
  | nil => simp [concatMap]
  | cons a as ih =>
      simp [concatMap, ih, hf a, Nat.mul_succ, Nat.add_comm]

/-!
Categorical encoding (`transformDataFrame`, generator script): the first pass
builds the distinct-value list in first-seen order, skipping `null` (the
source checks `value !== null` only, so `undefined` is treated as an ordinary
categorical value), via a hash map from value to assigned index; the second
pass maps each value to its index, with `null` mapped to `null`.
-/

/-- First pass of the categorical encoder: fold over the values, appending
each non-`null` value not yet seen.  `acc` is the list of distinct values
collected so far (the source's `uniqueValues` array). -/
def buildUniqAux : List JsVal → List JsVal → List JsVal
| acc, [] => acc
| acc, v :: vs =>
    if v ≠ JsVal.null ∧ v ∉ acc then buildUniqAux (acc ++ [v]) vs
    else buildUniqAux acc vs

/-- The distinct-value list of a column in first-seen order (the source's
`uniqueValues` / `categories`). -/
def buildUniq (values : List JsVal) : List JsVal := buildUniqAux [] values

/-- Index of the first occurrence of `v` in a list (the assigned index stored
in the source's `uniqueMap`; for values present in the list this equals the
map entry because indices are assigned in first-seen order). -/
def idxOf (v : JsVal) : List JsVal → ℕ
| [] => 0
| w :: ws => if w = v then 0 else idxOf v ws + 1

/-- Second pass of the categorical encoder:
`values.map (v => v === null ? null : uniqueMap.get(v))`. -/
def categoricalIndices (values : List JsVal) : List (Option ℕ) :=
  values.map (fun v => if v = JsVal.null then none else some (idxOf v (buildUniq values)))

/-- The categorical branch of `transformDataFrame`: the categories list and
the per-row index data. -/
def encodeCategoricalColumn (values : List JsVal) : List JsVal × List (Option ℕ) :=
  (buildUniq values, categoricalIndices values)

/-- Dtype inference of `transformDataFrame`: look at the first value that is
neither `null` nor `undefined`; `boolean` for a boolean, `categorical` for a
string, `integer` for an integral number, `numeric` for any other number, and
`numeric` when no such value exists.  (The source's final `throw` for
non-scalar values is unreachable in this scalar value domain.) -/
def inferDtype (values : List JsVal) : String :=
  match values.find? (fun v => decide (v ≠ JsVal.null ∧ v ≠ JsVal.undef)) with
  | none => "numeric"
  | some JsVal.null => "numeric"
  | some JsVal.undef => "numeric"
  | some (JsVal.bool _) => "boolean"
  | some (JsVal.str _) => "categorical"
  | some (JsVal.num q) => if q.den = 1 then "integer" else "numeric"

/-- Dtype inference as the specification states it, for comparison with
`inferDtype`: boolean if the first non-null, non-undefined sample is a
boolean, categorical if it is a string, integer if it is an integral number,
numeric otherwise (also when every value is null/undefined). -/
def specInferDtype (values : List JsVal) : String :=
  match values.find? (fun v => decide (v ≠ JsVal.null ∧ v ≠ JsVal.undef)) with
  | some (JsVal.bool _) => "boolean"
  | some (JsVal.str _) => "categorical"
  | some (JsVal.num q) => if q.den = 1 then "integer" else "numeric"
  | _ => "numeric"

/-!
Container data model (`data-types.ts` and the header object literal built by
`packColumnaryBinary`).
-/

/-- A visualization filter description, passed through the packer verbatim
into the header (`FilterSettings` in `data-types.ts`).  Cutoff values are
modelled as integers; JavaScript float formatting of non-integral cutoffs is
outside the modelled domain. -/
structure FilterSettings where
  type : String
  visualizationType : Option String
  field : String
  label : Option String
  yField : Option String
  yLabel : Option String
  description : Option String
  cutoffMin : Option ℤ
  cutoffMax : Option ℤ
  groupBy : Option String
deriving DecidableEq, Repr

/-- Per-category display metadata stored in the header
(`header.categories[key]` as built by `packColumnaryBinary`). -/
structure CategoryMeta where
  name : String
  key : String
  additionalAxes : Bool
  defaultFilters : List FilterSettings
deriving DecidableEq, Repr

/-- A column descriptor in the header (`ColumnInfo` in `data-types.ts`):
`offset` is a byte offset relative to the start of the data region and
`length` is the element count. -/
structure ColumnDesc where
  name : String
  categoryKey : String
  dtype : String
  offset : ℕ
  length : ℕ
  categories : Option (List String)
deriving DecidableEq, Repr

/-- The container header built by `packColumnaryBinary`: a `version` tag, the
category metadata map (modelled as an association list in insertion order,
which is the JSON serialisation order), the flat column descriptor list, and
the vestigial `totalSize` field (always `0` in the source). -/
structure Header where
  version : ℕ
  categories : List (String × CategoryMeta)
  columns : List ColumnDesc
  totalSize : ℕ
deriving DecidableEq, Repr

/-- One column of the packer's JSON input:
`{name, dtype?, data, categories?}`.  `data = none` models a `data` field
that is not array-shaped (`Array.isArray` fails) and is skipped with a
warning. -/
structure InputColumn where
  name : String
  dtype : Option String
  data : Option (List JsVal)
  categories : Option (List String)
deriving DecidableEq, Repr

/-- The packer's input dataset: category key to `{columns: [...]}` in object
insertion order; `none` models a category value without a `columns` array
(skipped with a warning). -/
abbrev InputData := List (String × Option (List InputColumn))

/-- One entry of the structure document's `categories` array. -/
structure StructCategory where
  key : String
  name : String
  additionalAxes : Option Bool
  defaultFilters : Option (List FilterSettings)
deriving DecidableEq, Repr

/-- The structure document passed to the packer. -/
structure StructureDoc where
  categories : List StructCategory
deriving DecidableEq, Repr

/-!
JSON serialisation of the header, mirroring `JSON.stringify` on the header
object literal: object keys in insertion order, `undefined`-valued keys
dropped, strings escaped as `JSON.stringify` escapes them, and UTF-8 output
bytes (`TextEncoder`).  Category keys are assumed distinct (duplicate keys in
a JavaScript object would collapse).
-/

/-- An opening brace character as a string. -/
def obr : String := "\x7b"

/-- A closing brace character as a string. -/
def cbr : String := "\x7d"

/-- Lowercase hexadecimal digit, for `\u00XX` escapes. -/
def hexDigit (n : ℕ) : Char := if n < 10 then Char.ofNat (48 + n) else Char.ofNat (87 + n)

/-- Escape one character as `JSON.stringify` does inside a string literal. -/
def jsonEscapeChar (c : Char) : String :=
  if c = '"' then "\\\""
  else if c = '\\' then "\\\\"
  else if c.toNat = 8 then "\\b"
  else if c = '\t' then "\\t"
  else if c = '\n' then "\\n"
  else if c.toNat = 12 then "\\f"
  else if c = '\r' then "\\r"
  else if c.toNat < 32 then "\\u00" ++ String.mk [hexDigit (c.toNat / 16), hexDigit (c.toNat % 16)]
  else String.singleton c

/-- A JSON string literal with its quotes. -/
def jsonQuote (s : String) : String :=
  "\"" ++ (s.data.foldr (fun c acc => jsonEscapeChar c ++ acc) "") ++ "\""

/-- A JSON array from already-serialised elements. -/
def jsonArr (elems : List String) : String := "[" ++ String.intercalate "," elems ++ "]"

/-- A JSON object from already-serialised `key:value` members. -/
def jsonObj (members : List String) : String := obr ++ String.intercalate "," members ++ cbr

/-- An optional string-valued member: dropped when `undefined`, as
`JSON.stringify` drops `undefined`-valued keys. -/
def jsonOptStrMember (key : String) : Option String → List String
| none => []
| some s => [jsonQuote key ++ ":" ++ jsonQuote s]

/-- An optional integer-valued member, dropped when `undefined`. -/
def jsonOptIntMember (key : String) : Option ℤ → List String
| none => []
| some i => [jsonQuote key ++ ":" ++ toString i]

/-- Serialise one `FilterSettings` object. -/
def stringifyFilter (f : FilterSettings) : String :=
  jsonObj ([jsonQuote "type" ++ ":" ++ jsonQuote f.type]
    ++ jsonOptStrMember "visualizationType" f.visualizationType
    ++ [jsonQuote "field" ++ ":" ++ jsonQuote f.field]
    ++ jsonOptStrMember "label" f.label
    ++ jsonOptStrMember "yField" f.yField
    ++ jsonOptStrMember "yLabel" f.yLabel
    ++ jsonOptStrMember "description" f.description
    ++ jsonOptIntMember "cutoffMin" f.cutoffMin
    ++ jsonOptIntMember "cutoffMax" f.cutoffMax
    ++ jsonOptStrMember "groupBy" f.groupBy)

/-- Serialise one category metadata object. -/
def stringifyCategoryMeta (m : CategoryMeta) : String :=
  jsonObj [jsonQuote "name" ++ ":" ++ jsonQuote m.name,
    jsonQuote "key" ++ ":" ++ jsonQuote m.key,
    jsonQuote "additionalAxes" ++ ":" ++ (if m.additionalAxes then "true" else "false"),
    jsonQuote "defaultFilters" ++ ":" ++ jsonArr (m.defaultFilters.map stringifyFilter)]

/-- Serialise one column descriptor.  The `categories` key is dropped when
the source set it to `undefined`. -/
def stringifyColumnDesc (c : ColumnDesc) : String :=
  jsonObj ([jsonQuote "name" ++ ":" ++ jsonQuote c.name,
    jsonQuote "categoryKey" ++ ":" ++ jsonQuote c.categoryKey,
    jsonQuote "dtype" ++ ":" ++ jsonQuote c.dtype,
    jsonQuote "offset" ++ ":" ++ toString c.offset,
    jsonQuote "length" ++ ":" ++ toString c.length]
    ++ (match c.categories with
        | none => []
        | some cats => [jsonQuote "categories" ++ ":" ++ jsonArr (cats.map jsonQuote)]))

/-- `JSON.stringify(header)`: key order `version`, `categories`, `columns`,
`totalSize` as in the source's object literal. -/
def stringifyHeader (h : Header) : String :=
  jsonObj [jsonQuote "version" ++ ":" ++ toString h.version,
    jsonQuote "categories" ++ ":" ++
      jsonObj (h.categories.map (fun kv => jsonQuote kv.1 ++ ":" ++ stringifyCategoryMeta kv.2)),
    jsonQuote "columns" ++ ":" ++ jsonArr (h.columns.map stringifyColumnDesc),
    jsonQuote "totalSize" ++ ":" ++ toString h.totalSize]

/-- UTF-8 encoding of one character, as `TextEncoder` produces. -/
def utf8EncodeCharNat (c : Char) : List ℕ :=
  let n := c.toNat
  if n < 128 then [n]
  else if n < 2048 then [192 + n / 64, 128 + n % 64]
  else if n < 65536 then [224 + n / 4096, 128 + n / 64 % 64, 128 + n % 64]
  else [240 + n / 262144, 128 + n / 4096 % 64, 128 + n / 64 % 64, 128 + n % 64]

/-- UTF-8 bytes of a string (`new TextEncoder().encode(s)`). -/
def utf8Bytes (s : String) : List ℕ := concatMap utf8EncodeCharNat s.data

/-!
The container packer (`packColumnaryBinary` in the compression library).
-/

/-- The check `Number.isInteger(v) && v >= -2147483648 && v <= 2147483647`
from the packer's int32 branch. -/
def isInt32Value : JsVal → Bool
| .num q => decide (q.den = 1 ∧ -2147483648 ≤ q.num ∧ q.num ≤ 2147483647)
| _ => false

/-- Little-endian byte serialisation of an unsigned 32-bit value
(`DataView.setUint32(..., true)` wraps modulo `2^32`). -/
def encodeUint32LE (n : ℕ) : List ℕ :=
  [n % 256, n / 256 % 256, n / 65536 % 256, n / 16777216 % 256]

/-- Little-endian bytes of a signed 32-bit integer as stored by an
`Int32Array` (two's complement). -/
def encodeInt32LE (i : ℤ) : List ℕ := encodeUint32LE (i.emod 4294967296).toNat

/-- The per-column encoding of `packColumnaryBinary`: a declared
`categorical` dtype stores the data through `Int32Array` element conversion;
otherwise, if every value is an integral number in the signed 32-bit range,
an `Int32Array` is used with dtype `int32`; otherwise each value goes through
`parseFloat(v) || 0` into a `Float32Array` with dtype `float32`.  Returns the
dtype tag and the column's raw bytes. -/
def encodeColumn (env : JsEnv) (dtype : Option String) (vals : List JsVal) : String × List ℕ :=
  if dtype = some "categorical" then
    ("categorical", concatMap (fun v => encodeInt32LE (jsToInt32 env v)) vals)
  else if vals.all isInt32Value then
    ("int32", concatMap (fun v => encodeInt32LE (jsToInt32 env v)) vals)
  else
    ("float32", concatMap (fun v => encodeUint32LE (env.f32bits (jsParseFloatOr0 env v) % 4294967296)) vals)

theorem encodeUint32LE_length (n : ℕ) : (encodeUint32LE n).length = 4 := rfl

theorem encodeInt32LE_length (i : ℤ) : (encodeInt32LE i).length = 4 := rfl

theorem encodeColumn_snd_length (env : JsEnv) (dtype : Option String) (vals : List JsVal) :
    (encodeColumn env dtype vals).2.length = 4 * vals.length := by
  unfold encodeColumn
  split
  · exact concatMap_length_const _ 4 (fun a => encodeInt32LE_length _) vals
  split
  · exact concatMap_length_const _ 4 (fun a => encodeInt32LE_length _) vals
  · exact concatMap_length_const _ 4 (fun a => encodeUint32LE_length _) vals

/-- The packer's iteration order: for each category (in object insertion
order) with a `columns` array, each column whose `data` is array-shaped, in
order; categories without columns and columns without array data are
skipped. -/
def flattenInput (data : InputData) : List (String × InputColumn) :=
  concatMap (fun kc => match kc.2 with
    | none => []
    | some cols => cols.filterMap (fun c => if c.data.isSome then some (kc.1, c) else none)) data

/-- The packer's main loop: encode each column, assign its descriptor's
`offset` as the running byte total of previously packed columns
(`currentDataOffset`) and its `length` as the element count, and concatenate
the raw column buffers in the same order.  The descriptor carries
`column.categories || undefined`. -/
def packColumnsAux (env : JsEnv) : List (String × InputColumn) → ℕ → List ColumnDesc × List ℕ
| [], _ => ([], [])
| kc :: rest, off =>
    let c := kc.2
    let vals := c.data.getD []
    let enc := encodeColumn env c.dtype vals
    let tail := packColumnsAux env rest (off + enc.2.length)
    ({name := c.name, categoryKey := kc.1, dtype := enc.1, offset := off,
      length := vals.length, categories := c.categories} :: tail.1,
     enc.2 ++ tail.2)

/-- The header object built by `packColumnaryBinary`: `version: 1`, the
structure document's categories folded into a key-indexed map with
`additionalAxes || false` and `defaultFilters || []` defaults, the column
descriptor list, and `totalSize: 0`. -/
def packHeader (env : JsEnv) (data : InputData) (struct : StructureDoc) : Header :=
  { version := 1,
    categories := struct.categories.map (fun c =>
      (c.key, { name := c.name, key := c.key,
                additionalAxes := c.additionalAxes.getD false,
                defaultFilters := c.defaultFilters.getD [] })),
    columns := (packColumnsAux env (flattenInput data) 0).1,
    totalSize := 0 }

/-- The packer's padding rule: bytes inserted after the header so that the
data region starts on a 4-byte boundary
(`(alignment - (dataStartOffset % alignment)) % alignment`). -/
def padFor (dataStartOffset : ℕ) : ℕ := (4 - dataStartOffset % 4) % 4

/-- The uncompressed container bytes produced by `packColumnaryBinary`:
`[uint32 LE header length][UTF-8 header JSON][zero padding][data region]`.
The source then gzips and base64-encodes this buffer; those two stages are
deterministic byte-to-text functions applied to this output and are not
re-modelled here. -/
def packBytes (env : JsEnv) (data : InputData) (struct : StructureDoc) : List ℕ :=
  let hdr := packHeader env data struct
  let headerBytes := utf8Bytes (stringifyHeader hdr)
  let dataBytes := (packColumnsAux env (flattenInput data) 0).2
  let dataStartOffset := 4 + headerBytes.length
  let padding := padFor dataStartOffset
  encodeUint32LE headerBytes.length ++ headerBytes ++ List.replicate padding 0 ++ dataBytes

/-!
The container reader (`loader.worker.ts`).
-/

/-- `DataView.getUint32(0, true)` on the decompressed buffer: the first four
bytes, little-endian.  Callers guard the buffer length; packer-produced
buffers have bytes below 256. -/
def readUint32LE (buffer : List ℕ) : ℕ :=
  buffer.getD 0 0 + 256 * buffer.getD 1 0 + 65536 * buffer.getD 2 0 + 16777216 * buffer.getD 3 0

/-- The reader's recomputation of the aligned data-region start in
`extractColumn`: read the header length from the first four bytes (`none`
models the `RangeError` of a buffer shorter than four bytes) and re-apply the
packer's padding rule to `4 + headerLength`. -/
def alignedDataStartOfBuffer (buffer : List ℕ) : Option ℕ :=
  if 4 ≤ buffer.length then
    some ((4 + readUint32LE buffer) + padFor (4 + readUint32LE buffer))
  else none

/-- `extractColumn` of `loader.worker.ts`: find the descriptor by exact
name and category match, recompute the aligned data-region start, add the
descriptor's relative offset, and copy out `length` four-byte elements
(`Int32Array`/`Float32Array` construction requires the view to be in bounds
and four-byte aligned, else it throws a `RangeError`).  Errors are rethrown
with the `Failed to extract column:` wrapper. -/
def extractColumnM (buffer : List ℕ) (header : Header) (columnName categoryKey : String) :
    Except String (List ℕ) :=
  match header.columns.find? (fun col => col.name == columnName && col.categoryKey == categoryKey) with
  | none => .error ("Failed to extract column: Column " ++ columnName
      ++ " not found in category " ++ categoryKey)
  | some col =>
    match alignedDataStartOfBuffer buffer with
    | none => .error "Failed to extract column: RangeError"
    | some alignedDataStart =>
      let absoluteOffset := alignedDataStart + col.offset
      if col.dtype == "int32" || col.dtype == "categorical" || col.dtype == "float32" then
        if absoluteOffset % 4 = 0 ∧ absoluteOffset + 4 * col.length ≤ buffer.length then
          .ok ((buffer.drop absoluteOffset).take (4 * col.length))
        else .error "Failed to extract column: RangeError"
      else .error ("Failed to extract column: Unsupported column type: " ++ col.dtype)

/-- Decode a little-endian byte stream as the signed 32-bit elements an
`Int32Array` view exposes. -/
def bytesToInt32LE : List ℕ → List ℤ
| b0 :: b1 :: b2 :: b3 :: rest =>
    toInt32 ((b0 + 256 * b1 + 65536 * b2 + 16777216 * b3 : ℕ) : ℤ) :: bytesToInt32LE rest
| _ => []

/-- Decoding categorical indices through the categories list, as the
consuming code does (`sampleCategories[sampleIndex]` in the worker-side
filter helpers): a JavaScript array lookup, `undefined` (`none`) when the
index is out of range. -/
def decodeCategorical (categories : List String) (idxs : List ℤ) : List (Option String) :=
  idxs.map (fun i => if 0 ≤ i then categories[i.toNat]? else none)

/-!
The decompression worker (`loader.worker.ts`): module-level cache
`{header, buffer, payload}` and the `self.onmessage` handler.
-/

/-- A worker request (`WorkerMessage` in `data-types.ts`): a `type` tag with
optional fields, exactly as the TypeScript interface declares them. -/
structure WorkerMessageM where
  type : String
  columnName : Option String
  categoryKey : Option String
  payload : Option String
deriving DecidableEq, Repr

/-- A worker response (`WorkerResponse` in `data-types.ts`). -/
inductive WorkerResponseM where
| header (h : Option Header)
| columnData (columnName categoryKey : String) (data : List ℕ)
| categoryData (categoryKey : String) (data : List (String × List ℕ))
| errorResp (columnName categoryKey : Option String) (msg : String)
deriving DecidableEq, Repr

/-- The worker's module-level cache plus a ghost counter of how many times
decompression actually ran. -/
structure WorkerStateM where
  payload : Option String
  buffer : Option (List ℕ)
  header : Option Header
  decompressCount : ℕ
deriving DecidableEq, Repr

/-- The worker cache at module load: everything `null`. -/
def initWorkerState : WorkerStateM :=
  { payload := none, buffer := none, header := none, decompressCount := 0 }

/-- The worker's environment: `decompress` is base64 decoding followed by
gzip decompression (`loadPayload`'s body; modelled as a total function since
no claim concerns corrupt-gzip handling), `parseJson` is `JSON.parse` on the
header bytes (`none` models a parse failure). -/
structure WorkerEnvM where
  decompress : String → List ℕ
  parseJson : List ℕ → Option Header

/-- JavaScript truthiness of an optional string field (absent or empty
string is falsy). -/
def jsTruthyStr : Option String → Bool
| none => false
| some s => !(s == "")

/-- `loadPayload`: return the cached decompressed buffer, or decompress the
stored base64 payload, cache it, and count the decompression. -/
def loadPayloadM (env : WorkerEnvM) (st : WorkerStateM) (p : String) : List ℕ × WorkerStateM :=
  match st.buffer with
  | some b => (b, st)
  | none =>
      let b := env.decompress p
      (b, { st with buffer := some b, decompressCount := st.decompressCount + 1 })

/-- The uncached part of `parseHeader`: read the little-endian header length
from the first four bytes, slice exactly that many following bytes, and
JSON-parse them; `none` models any thrown error (short buffer or garbled
JSON). -/
def parseHeaderBytes (env : WorkerEnvM) (buffer : List ℕ) : Option Header :=
  if 4 ≤ buffer.length then
    let len := readUint32LE buffer
    if 4 + len ≤ buffer.length then env.parseJson ((buffer.drop 4).take len) else none
  else none

/-- `parseHeader`: return the cached header or parse and cache it. -/
def parseHeaderM (env : WorkerEnvM) (buffer : List ℕ) (st : WorkerStateM) :
    Except String Header × WorkerStateM :=
  match st.header with
  | some h => (.ok h, st)
  | none =>
      match parseHeaderBytes env buffer with
      | some h => (.ok h, { st with header := some h })
      | none => (.error "Failed to parse header", st)

/-- `extractCategory`: extract every column whose descriptor matches the
category key; an empty match set is an error. -/
def extractCategoryM (buffer : List ℕ) (header : Header) (categoryKey : String) :
    Except String (List (String × List ℕ)) :=
  let cols := header.columns.filter (fun col => col.categoryKey == categoryKey)
  if cols.isEmpty then
    .error ("Failed to extract category: No columns found for category " ++ categoryKey)
  else
    cols.foldr (fun c acc => do
      let d ← extractColumnM buffer header c.name categoryKey
      let r ← acc
      pure ((c.name, d) :: r)) (pure [])

/-- The shared shape of the worker's three load branches: require a stored
payload, load (and cache) the decompressed buffer, parse (and cache) the
header, then run the branch body.  When any step throws, the source's
`catch` block itself raises a `ReferenceError` — it reads `columnName` and
`categoryKey`, which are `const`-bound inside the `try` block and not in
scope in the `catch` block — so no response at all is posted; the cache
mutations made before the throw persist. -/
def handleLoad (env : WorkerEnvM) (st : WorkerStateM)
    (body : List ℕ → Header → Except String WorkerResponseM) :
    WorkerStateM × Option WorkerResponseM :=
  match st.payload with
  | none => (st, none)
  | some p =>
      let bs := loadPayloadM env st p
      match parseHeaderM env bs.1 bs.2 with
      | (.ok h, st2) =>
          match body bs.1 h with
          | .ok r => (st2, some r)
          | .error _ => (st2, none)
      | (.error _, st2) => (st2, none)

/-- The worker's `self.onmessage` handler.  `setPayload` with a truthy
payload stores the string and acknowledges with a bare `header` response;
the three load branches go through `handleLoad`; anything else throws
`Unknown message type` — and every thrown error reaches the broken `catch`
block described at `handleLoad`, so error outcomes post no response. -/
def workerOnMessage (env : WorkerEnvM) (st : WorkerStateM) (msg : WorkerMessageM) :
    WorkerStateM × Option WorkerResponseM :=
  if msg.type == "setPayload" && jsTruthyStr msg.payload then
    ({ st with payload := msg.payload }, some (.header none))
  else if msg.type == "loadHeader" then
    handleLoad env st (fun _ h => .ok (.header (some h)))
  else if msg.type == "loadColumn" && jsTruthyStr msg.columnName && jsTruthyStr msg.categoryKey then
    handleLoad env st (fun buf h =>
      (extractColumnM buf h (msg.columnName.getD "") (msg.categoryKey.getD "")).map
        (fun d => .columnData (msg.columnName.getD "") (msg.categoryKey.getD "") d))
  else if msg.type == "loadCategory" && jsTruthyStr msg.categoryKey then
    handleLoad env st (fun buf h =>
      (extractCategoryM buf h (msg.categoryKey.getD "")).map
        (fun d => .categoryData (msg.categoryKey.getD "") d))
  else (st, none)

/-- Process a sequence of worker messages, keeping the cache state. -/
def runWorker (env : WorkerEnvM) (st : WorkerStateM) : List WorkerMessageM → WorkerStateM
| [] => st
| m :: ms => runWorker env (workerOnMessage env st m).1 ms

/-!
The client facade (`DataLoader` in `data-loader.ts`).  Object identity of
JavaScript heap values matters to claim C5, so typed-array construction is
modelled with an allocation counter: every `new Int32Array(buffer)` /
`new Float32Array(buffer)` yields a fresh view object (fresh `viewId`) over
the same backing `ArrayBuffer` (`backing`).
-/

/-- The `TypedColumnData` result object: its identity-bearing typed-array
view and the identity of the `ArrayBuffer` backing it. -/
structure TypedColView where
  name : String
  dtype : String
  viewId : ℕ
  backing : ℕ
  categories : Option (List String)
deriving DecidableEq, Repr

/-- The facade's mutable state: the allocation counter, the per-column
buffer cache (`columnCache`, key to `ArrayBuffer` identity), the keys with a
pending in-flight request (`pendingRequests`), and the `loadColumn` messages
posted to the worker (a call counter on a mocked worker). -/
structure LoaderState where
  nextId : ℕ
  columnCache : List (String × ℕ)
  pendingKeys : List String
  sentMessages : List (String × String)
deriving DecidableEq, Repr

/-- The facade state right after `init()`: empty caches, nothing pending. -/
def initLoaderState : LoaderState :=
  { nextId := 0, columnCache := [], pendingKeys := [], sentMessages := [] }

/-- The cache key `` `${categoryKey}:${columnName}` ``. -/
def cacheKeyOf (columnName categoryKey : String) : String := categoryKey ++ ":" ++ columnName

/-- `bufferToTypedColumn`: look up the descriptor and wrap the buffer in a
dtype-appropriate typed view.  A fresh view object is constructed on every
call (`new Int32Array(buffer)` is a view over `buffer`, not a copy), hence
the allocation of a fresh `viewId` over the same `backing`. -/
def bufferToTypedColumnM (header : Header) (st : LoaderState) (bufId : ℕ)
    (columnName categoryKey : String) : Except String TypedColView × LoaderState :=
  match header.columns.find? (fun col => col.name == columnName && col.categoryKey == categoryKey) with
  | none => (.error ("Column " ++ columnName ++ " not found in category " ++ categoryKey), st)
  | some col =>
    if col.dtype == "int32" || col.dtype == "categorical" then
      (.ok { name := columnName, dtype := col.dtype, viewId := st.nextId, backing := bufId,
             categories := col.categories },
       { st with nextId := st.nextId + 1 })
    else if col.dtype == "float32" then
      (.ok { name := columnName, dtype := col.dtype, viewId := st.nextId, backing := bufId,
             categories := none },
       { st with nextId := st.nextId + 1 })
    else (.error ("Unsupported column type: " ++ col.dtype), st)

/-- The synchronous outcome of entering `loadColumn`. -/
inductive LoadStart where
| done (result : Except String TypedColView)
| waitCreator
| waitJoiner
deriving Repr

/-- The synchronous prefix of `loadColumn(columnName, categoryKey)`: a cache
hit returns immediately through `bufferToTypedColumn`; a key already in
`pendingRequests` awaits the existing promise (`waitJoiner`) without posting
a message; otherwise the caller registers the pending key, posts exactly one
`loadColumn` worker message, and awaits (`waitCreator`). -/
def loadColumnStart (header : Header) (st : LoaderState) (columnName categoryKey : String) :
    LoadStart × LoaderState :=
  let key := cacheKeyOf columnName categoryKey
  match st.columnCache.find? (fun kv => kv.1 == key) with
  | some kv =>
      let r := bufferToTypedColumnM header st kv.2 columnName categoryKey
      (.done r.1, r.2)
  | none =>
      if st.pendingKeys.contains key then (.waitJoiner, st)
      else (.waitCreator,
        { st with pendingKeys := key :: st.pendingKeys,
                  sentMessages := st.sentMessages ++ [(columnName, categoryKey)] })

/-- The creator's continuation once the worker's buffer arrives: cache the
buffer, clear the pending entry, and build the typed result. -/
def loadColumnCreatorResume (header : Header) (st : LoaderState) (bufId : ℕ)
    (columnName categoryKey : String) : Except String TypedColView × LoaderState :=
  let key := cacheKeyOf columnName categoryKey
  let st1 := { st with columnCache := (key, bufId) :: st.columnCache,
                       pendingKeys := st.pendingKeys.filter (fun k => !(k == key)) }
  bufferToTypedColumnM header st1 bufId columnName categoryKey

/-- A joiner's continuation: it awaited the shared promise and only wraps
the same resolved buffer. -/
def loadColumnJoinerResume (header : Header) (st : LoaderState) (bufId : ℕ)
    (columnName categoryKey : String) : Except String TypedColView × LoaderState :=
  bufferToTypedColumnM header st bufId columnName categoryKey

/-- What a `loadColumn` promise executor's message listener does with an
incoming worker response (`data-loader.ts` lines 126-137): resolve on a
`columnData` response matching the requested name and category; reject on
any `error` response — the source performs no key match on errors. -/
inductive ListenerAction where
| resolveData (data : List ℕ)
| rejectErr (msg : String)
| ignore
deriving DecidableEq, Repr

/-- The listener of the pending `loadColumn(columnName, categoryKey)`
request applied to one worker response. -/
def loadColumnHandleMessage (columnName categoryKey : String) (resp : WorkerResponseM) :
    ListenerAction :=
  match resp with
  | .columnData cn ck d =>
      if cn == columnName && ck == categoryKey then .resolveData d else .ignore
  | .errorResp _ _ m => .rejectErr m
  | _ => .ignore

/-!
Auxiliary definitions shared by the claim theorems.
-/

instance {ε α : Type _} [DecidableEq ε] [DecidableEq α] : DecidableEq (Except ε α) := fun a b =>
  match a, b with
  | .ok x, .ok y =>
      if h : x = y then .isTrue (h ▸ rfl) else .isFalse (fun hc => h (Except.ok.inj hc))
  | .error x, .error y =>
      if h : x = y then .isTrue (h ▸ rfl) else .isFalse (fun hc => h (Except.error.inj hc))
  | .ok _, .error _ => .isFalse (fun hc => Except.noConfusion hc)
  | .error _, .ok _ => .isFalse (fun hc => Except.noConfusion hc)

/-- The JSON value written by the generator for one encoded categorical
entry, as the packer later reads it back: the assigned index becomes a
number, a missing entry becomes `null`. -/
def idxToJsVal : Option ℕ → JsVal
| none => JsVal.null
| some k => JsVal.num k

/-- The int32 values the packer stores for an encoded categorical column:
the generator's index data fed through the packer's `Int32Array` element
conversion. -/
def packedCatIndexInts (env : JsEnv) (values : List JsVal) : List ℤ :=
  ((categoricalIndices values).map idxToJsVal).map (jsToInt32 env)

/-- The byte length of the serialised header JSON of a packed artifact. -/
def headerByteLength (env : JsEnv) (data : InputData) (struct : StructureDoc) : ℕ :=
  (utf8Bytes (stringifyHeader (packHeader env data struct))).length

/-- A concrete platform environment for witnesses: claims evaluated with it
never reach the float32 bit-pattern or string-parsing paths. -/
def jsEnvTriv : JsEnv :=
  { f32bits := fun _ => 0, toNumberStr := fun _ => none, parseFloatStr := fun _ => none }

/-- Claim C8 — determinism.  Packing is a pure function of the data map and
the structure document: the header built by `packColumnaryBinary` contains
only `version`, the folded categories metadata, the column descriptors and
the constant `totalSize` — no timestamps or other run-dependent fields — so
equal logical inputs yield byte-identical uncompressed containers, and hence
byte-identical output through the deterministic gzip-then-base64 stage
(quantified here as an arbitrary function `gzipBase64`). -/
theorem pack_deterministic (gzipBase64 : List ℕ → String) (env : JsEnv)
    (d₁ d₂ : InputData) (s₁ s₂ : StructureDoc) (hd : d₁ = d₂) (hs : s₁ = s₂) :
    gzipBase64 (packBytes env d₁ s₁) = gzipBase64 (packBytes env d₂ s₂) := by
  rw [hd, hs]

/-- Witness for `pack_deterministic` at a concrete input. -/
theorem pack_deterministic_witness :
    (fun l : List ℕ => toString l.length) (packBytes jsEnvTriv [] ⟨[]⟩) =
      (fun l : List ℕ => toString l.length) (packBytes jsEnvTriv [] ⟨[]⟩) :=
  pack_deterministic (fun l => toString l.length) jsEnvTriv [] [] ⟨[]⟩ ⟨[]⟩ rfl rfl

/-- Claim C9 — dtype inference.  `transformDataFrame` infers a column's
dtype from the first non-null, non-undefined sample exactly as the
specification states: boolean for a boolean sample, categorical for a
string, integer for an integral number, numeric otherwise, and numeric when
every value is null/undefined. -/
theorem dtype_inference_matches_spec (values : List JsVal) :
    inferDtype values = specInferDtype values ∧
      ((∀ v ∈ values, v = JsVal.null ∨ v = JsVal.undef) → inferDtype values = "numeric") := by
  constructor
  · unfold inferDtype specInferDtype
    cases h : values.find? (fun v => decide (v ≠ JsVal.null ∧ v ≠ JsVal.undef)) with
    | none => rfl
    | some v => cases v <;> rfl
  · intro hall
    have hnone : values.find? (fun v => decide (v ≠ JsVal.null ∧ v ≠ JsVal.undef)) = none := by
      rw [List.find?_eq_none]
      intro v hv
      rcases hall v hv with h | h <;> simp [h]
    unfold inferDtype
    rw [hnone]

/-- Witness for `dtype_inference_matches_spec` on an all-null column. -/
theorem dtype_inference_witness :
    inferDtype [JsVal.null] = specInferDtype [JsVal.null] ∧
      inferDtype [JsVal.null] = "numeric" :=
  ⟨(dtype_inference_matches_spec [JsVal.null]).1,
   (dtype_inference_matches_spec [JsVal.null]).2
     (by intro v hv; rw [List.mem_singleton] at hv; exact Or.inl hv)⟩

theorem readUint32LE_encode (n : ℕ) (rest : List ℕ) (hn : n < 4294967296) :
    readUint32LE (encodeUint32LE n ++ rest) = n := by
  simp only [readUint32LE, encodeUint32LE, List.cons_append, List.nil_append,
    List.getD_cons_zero, List.getD_cons_succ]
  omega

/-- Claim C2 — alignment.  For every packed container, the padding `P`
between the header and the data region satisfies
`P = (4 - (4+N) mod 4) mod 4`, `0 ≤ P ≤ 3` and `4+N+P ≡ 0 (mod 4)` where `N`
is the header JSON byte length; and the reader's `extractColumn` recomputes
exactly the same aligned data-region start `4+N+P` from the container bytes
before adding the descriptor's relative offset.  (The reader-agreement part
assumes the header is shorter than `2^32` bytes, the capacity of the
`uint32` length field.) -/
theorem header_padding_alignment_reader_agreement (env : JsEnv) (data : InputData)
    (struct : StructureDoc) :
    padFor (4 + headerByteLength env data struct) =
      (4 - (4 + headerByteLength env data struct) % 4) % 4 ∧
    padFor (4 + headerByteLength env data struct) ≤ 3 ∧
    (4 + headerByteLength env data struct + padFor (4 + headerByteLength env data struct)) % 4 = 0 ∧
    (headerByteLength env data struct < 4294967296 →
      alignedDataStartOfBuffer (packBytes env data struct) =
        some (4 + headerByteLength env data struct +
          padFor (4 + headerByteLength env data struct))) := by
  refine ⟨rfl, ?_, ?_, ?_⟩
  · unfold padFor; omega
  · unfold padFor; omega
  · intro hN
    have hsplit : packBytes env data struct =
        encodeUint32LE (headerByteLength env data struct) ++
          (utf8Bytes (stringifyHeader (packHeader env data struct)) ++
            (List.replicate (padFor (4 + headerByteLength env data struct)) 0 ++
              (packColumnsAux env (flattenInput data) 0).2)) := by
      simp [packBytes, headerByteLength, List.append_assoc]
    rw [hsplit]
    unfold alignedDataStartOfBuffer
    rw [if_pos (by simp [encodeUint32LE])]
    rw [readUint32LE_encode _ _ hN]

/-- Witness for `header_padding_alignment_reader_agreement` at a concrete
(empty) input, with the header-length hypothesis discharged by evaluation. -/
theorem header_padding_alignment_witness :
    padFor (4 + headerByteLength jsEnvTriv [] ⟨[]⟩) ≤ 3 ∧
    alignedDataStartOfBuffer (packBytes jsEnvTriv [] ⟨[]⟩) =
      some (4 + headerByteLength jsEnvTriv [] ⟨[]⟩ +
        padFor (4 + headerByteLength jsEnvTriv [] ⟨[]⟩)) :=
  ⟨(header_padding_alignment_reader_agreement jsEnvTriv [] ⟨[]⟩).2.1,
   (header_padding_alignment_reader_agreement jsEnvTriv [] ⟨[]⟩).2.2.2 (by decide)⟩

/-- The Scenario B column values. -/
def c1Vals : List JsVal := [JsVal.str "a", JsVal.str "b", JsVal.str "a"]

/-- The packer input for Scenario B: the categorical column as the generator
emits it (index data and the categories list) under one category. -/
def c1Data : InputData :=
  [("grp_cat", some [{ name := "grp", dtype := some "categorical",
                       data := some [JsVal.num 0, JsVal.num 1, JsVal.num 0],
                       categories := some ["a", "b"] }])]

/-- A minimal structure document for Scenario B. -/
def c1Struct : StructureDoc := ⟨[⟨"grp_cat", "Group", none, none⟩]⟩

/-- Claim C1 — Scenario B.  Encoding the categorical column
`["a","b","a"]` builds the distinct-value list `["a","b"]` in first-seen
order and maps each value to its index, giving `[0,1,0]`; packing that
column produces a header descriptor carrying `categories: ["a","b"]` and a
data region holding the raw little-endian int32 indices `[0,1,0]` for the
column (recovered here through the reader's `extractColumn`); and decoding
those indices through the categories list reconstructs `["a","b","a"]`. -/
theorem categorical_pack_scenario :
    encodeCategoricalColumn c1Vals = ([JsVal.str "a", JsVal.str "b"], [some 0, some 1, some 0]) ∧
    (categoricalIndices c1Vals).map idxToJsVal = [JsVal.num 0, JsVal.num 1, JsVal.num 0] ∧
    (packHeader jsEnvTriv c1Data c1Struct).columns =
      [⟨"grp", "grp_cat", "categorical", 0, 3, some ["a", "b"]⟩] ∧
    extractColumnM (packBytes jsEnvTriv c1Data c1Struct) (packHeader jsEnvTriv c1Data c1Struct)
        "grp" "grp_cat" = .ok [0,0,0,0, 1,0,0,0, 0,0,0,0] ∧
    bytesToInt32LE [0,0,0,0, 1,0,0,0, 0,0,0,0] = [0, 1, 0] ∧
    decodeCategorical ["a", "b"] [0, 1, 0] = [some "a", some "b", some "a"] := by
  set_option maxRecDepth 10000 in decide

/-- A concrete container header carrying an unknown format version tag
(`999`; the packer writes `1`). -/
def c6Hdr : Header :=
  { version := 999, categories := [], columns := [⟨"x", "s", "int32", 0, 1, none⟩], totalSize := 0 }

/-- A well-formed container whose header JSON (4 bytes) declares the
version-999 header above and whose data region holds one int32 column. -/
def c6Bytes : List ℕ := encodeUint32LE 4 ++ [65, 66, 67, 68] ++ encodeInt32LE 42

/-- The worker environment for the version-999 artifact: decompressing its
payload yields `c6Bytes`, and `JSON.parse` of its header bytes yields
`c6Hdr`. -/
def c6Env : WorkerEnvM := ⟨fun _ => c6Bytes, fun _ => some c6Hdr⟩

/-- Claim C6, counterexample.  The claim states that the reader rejects a
container with an unknown version tag instead of serving header or column
data.  On this concrete version-999 container (the packer's own version is
`1`), `parseHeader` succeeds and caches the header, the worker's
`loadHeader` serves it, and `extractColumn` serves the column bytes — no
error is raised anywhere. -/
theorem unknown_version_served :
    c6Hdr.version = 999 ∧ (packHeader jsEnvTriv [] ⟨[]⟩).version = 1 ∧
    parseHeaderM c6Env c6Bytes initWorkerState =
      (.ok c6Hdr, { initWorkerState with header := some c6Hdr }) ∧
    workerOnMessage c6Env { initWorkerState with payload := some "payload" }
        ⟨"loadHeader", none, none, none⟩ =
      ({ payload := some "payload", buffer := some c6Bytes, header := some c6Hdr,
         decompressCount := 1 }, some (.header (some c6Hdr))) ∧
    extractColumnM c6Bytes c6Hdr "x" "s" = .ok [42, 0, 0, 0] := by decide

/-- Claim C6, amended.  The reader never inspects the version tag: header
parsing validates nothing beyond the length prefix and JSON parse, and both
column and category extraction behave identically for every version value,
so an unknown-version container is served normally rather than rejected. -/
theorem reader_ignores_version (buffer : List ℕ) (h : Header) (v : ℕ)
    (columnName categoryKey : String) :
    extractColumnM buffer { h with version := v } columnName categoryKey =
      extractColumnM buffer h columnName categoryKey ∧
    extractCategoryM buffer { h with version := v } categoryKey =
      extractCategoryM buffer h categoryKey := ⟨rfl, rfl⟩

/-- A concrete artifact for the failing-request run: one int32 column `x`
in category `s`. -/
def c4Hdr : Header :=
  { version := 1, categories := [], columns := [⟨"x", "s", "int32", 0, 1, none⟩], totalSize := 0 }

/-- The artifact's container bytes. -/
def c4Bytes : List ℕ := encodeUint32LE 4 ++ [65, 66, 67, 68] ++ encodeInt32LE 7

/-- The worker environment for the artifact. -/
def c4Env : WorkerEnvM := ⟨fun _ => c4Bytes, fun _ => some c4Hdr⟩

/-- Worker state with the artifact's payload already stored. -/
def c4St : WorkerStateM := { initWorkerState with payload := some "UEFZ" }

/-- Claim C4 — evaluation at the failing input.  Requesting the absent
column `missing` makes `extractColumn` throw a lookup error; the worker's
`catch` block then reads `columnName`/`categoryKey`, which are `const`-bound
inside the `try` block and not in scope there, so the handler itself raises
a `ReferenceError` and posts no response at all (the buffer/header cache
mutations made before the throw persist) — the claimed error response
carrying the requested keys never reaches the facade.  Moreover, even for an
error response that does arrive, the facade's `loadColumn` listener rejects
on any `error` response without matching the echoed key: the listener of the
pending request for column `a` rejects on an error raised for column `b`. -/
theorem worker_error_response_lost :
    extractColumnM c4Bytes c4Hdr "missing" "s" =
      .error "Failed to extract column: Column missing not found in category s" ∧
    workerOnMessage c4Env c4St ⟨"loadColumn", some "missing", some "s", none⟩ =
      ({ payload := some "UEFZ", buffer := some c4Bytes, header := some c4Hdr,
         decompressCount := 1 }, none) ∧
    loadColumnHandleMessage "a" "s" (.errorResp (some "b") (some "s") "boom") =
      .rejectErr "boom" := by decide

/-- A one-column header for exercising the facade's `loadColumn`. -/
def c5Header (columnName categoryKey : String) (cats : Option (List String)) : Header :=
  { version := 1, categories := [],
    columns := [⟨columnName, categoryKey, "categorical", 0, 0, cats⟩], totalSize := 0 }

/-- The facade state after two concurrent `loadColumn("x","s")` entries. -/
def c5St2 : LoaderState :=
  (loadColumnStart (c5Header "x" "s" none)
    ((loadColumnStart (c5Header "x" "s" none) initLoaderState "x" "s").2) "x" "s").2

/-- The first (creator) caller's result once the worker buffer `7` arrives. -/
def c5ResA : Except String TypedColView × LoaderState :=
  loadColumnCreatorResume (c5Header "x" "s" none) c5St2 7 "x" "s"

/-- The second (joiner) caller's result from the same resolved buffer. -/
def c5ResB : Except String TypedColView × LoaderState :=
  loadColumnJoinerResume (c5Header "x" "s" none) c5ResA.2 7 "x" "s"

/-- Claim C5, counterexample.  The claim states that two concurrent
`loadColumn` callers receive reference-equal results and that a cached load
returns the identical cached typed array.  In this concrete run the two
callers' results are distinct heap objects — `bufferToTypedColumn` runs
`new Int32Array(buffer)` and builds a fresh result object per caller, here
with allocation identities `0` and `1` — over the same backing buffer `7`;
they are not reference-equal. -/
theorem loadColumn_results_not_reference_equal :
    c5ResA.1 = .ok { name := "x", dtype := "categorical", viewId := 0, backing := 7,
                     categories := none } ∧
    c5ResB.1 = .ok { name := "x", dtype := "categorical", viewId := 1, backing := 7,
                     categories := none } ∧
    ¬ (0 : ℕ) = 1 := by decide

/-- Claim C5, amended.  Two concurrent `loadColumn(name, cat)` calls (the
second entering before the first resolves) send exactly one `loadColumn`
message to the worker, and both callers receive results backed by the same
`ArrayBuffer` — though each caller gets a freshly constructed typed-array
view object, so the results share backing memory without being
reference-equal.  Once the column is cached, a subsequent `loadColumn` for
the same key makes no further worker round-trip and again returns a fresh
typed-array view over the identical cached buffer. -/
theorem loadColumn_dedup_shared_backing (columnName categoryKey : String)
    (cats : Option (List String)) (bufId : ℕ) :
    let hdr : Header := c5Header columnName categoryKey cats
    let s1 := loadColumnStart hdr initLoaderState columnName categoryKey
    let s2 := loadColumnStart hdr s1.2 columnName categoryKey
    let rA := loadColumnCreatorResume hdr s2.2 bufId columnName categoryKey
    let rB := loadColumnJoinerResume hdr rA.2 bufId columnName categoryKey
    let s5 := loadColumnStart hdr rB.2 columnName categoryKey
    s1.1 = LoadStart.waitCreator ∧
    s2.1 = LoadStart.waitJoiner ∧
    s2.2.sentMessages = [(columnName, categoryKey)] ∧
    rA.1 = .ok { name := columnName, dtype := "categorical", viewId := 0, backing := bufId,
                 categories := cats } ∧
    rB.1 = .ok { name := columnName, dtype := "categorical", viewId := 1, backing := bufId,
                 categories := cats } ∧
    s5.2.sentMessages = [(columnName, categoryKey)] ∧
    s5.1 = .done (.ok { name := columnName, dtype := "categorical", viewId := 2, backing := bufId,
                        categories := cats }) := by
  simp [loadColumnStart, loadColumnCreatorResume, loadColumnJoinerResume,
    bufferToTypedColumnM, initLoaderState, cacheKeyOf, c5Header]

/-- The worker cache invariant tying the ghost decompression counter to the
buffer cache: decompression has run exactly once iff the buffer is cached. -/
def workerCountInv (st : WorkerStateM) : Prop :=
  st.decompressCount = (if st.buffer.isSome then 1 else 0)

theorem loadPayloadM_count (env : WorkerEnvM) (st : WorkerStateM) (p : String)
    (h : workerCountInv st) : workerCountInv (loadPayloadM env st p).2 := by
  unfold workerCountInv loadPayloadM at *
  cases hb : st.buffer <;> simp_all

theorem parseHeaderM_frame (env : WorkerEnvM) (buffer : List ℕ) (st : WorkerStateM) :
    (parseHeaderM env buffer st).2.buffer = st.buffer ∧
    (parseHeaderM env buffer st).2.decompressCount = st.decompressCount := by
  unfold parseHeaderM
  cases hh : st.header
  · cases hpb : parseHeaderBytes env buffer <;> simp
  · simp

theorem handleLoad_count (env : WorkerEnvM) (st : WorkerStateM)
    (body : List ℕ → Header → Except String WorkerResponseM)
    (h : workerCountInv st) : workerCountInv (handleLoad env st body).1 := by
  unfold handleLoad
  cases hp : st.payload
  · simpa using h
  · rename_i p
    have h1 := loadPayloadM_count env st p h
    have h2 := parseHeaderM_frame env (loadPayloadM env st p).1 (loadPayloadM env st p).2
    rcases hph : parseHeaderM env (loadPayloadM env st p).1 (loadPayloadM env st p).2 with ⟨res, st2⟩
    rw [hph] at h2
    unfold workerCountInv at *
    cases res with
    | ok hh =>
        cases hbody : body (loadPayloadM env st p).1 hh <;>
          simp_all [hph]
    | error e => simp_all [hph]

theorem workerOnMessage_count (env : WorkerEnvM) (st : WorkerStateM) (msg : WorkerMessageM)
    (h : workerCountInv st) : workerCountInv (workerOnMessage env st msg).1 := by
  unfold workerOnMessage
  split
  · unfold workerCountInv at *; simpa using h
  split
  · exact handleLoad_count env st _ h
  split
  · exact handleLoad_count env st _ h
  split
  · exact handleLoad_count env st _ h
  · exact h

theorem runWorker_count (env : WorkerEnvM) (msgs : List WorkerMessageM) :
    ∀ st : WorkerStateM, workerCountInv st → workerCountInv (runWorker env st msgs) := by
  induction msgs with
  | nil => intro st h; exact h
  | cons m ms ih => intro st h; exact ih _ (workerOnMessage_count env st m h)

theorem handleLoad_count_succ (env : WorkerEnvM)
    (body : List ℕ → Header → Except String WorkerResponseM) (p : String)
    (hdr : Option Header) (c : ℕ) :
    (handleLoad env { payload := some p, buffer := none, header := hdr, decompressCount := c }
      body).1.decompressCount = c + 1 := by
  unfold handleLoad loadPayloadM
  simp only []
  have h2 := parseHeaderM_frame env (env.decompress p)
    { payload := some p, buffer := some (env.decompress p), header := hdr, decompressCount := c + 1 }
  rcases hph : parseHeaderM env (env.decompress p)
    { payload := some p, buffer := some (env.decompress p), header := hdr,
      decompressCount := c + 1 } with ⟨res, st2⟩
  rw [hph] at h2
  cases res with
  | ok hh => cases hbody : body (env.decompress p) hh <;> simp_all
  | error e => simp_all

/-- Claim C7 — setPayload frame and lazy decompression.  Processing a
`setPayload` message with a (truthy) payload only stores the base64 string:
buffer, header and the decompression counter are untouched and the worker
acknowledges with a bare `header` response.  Decompression runs at most once
per artifact over any message sequence from the initial worker state, it has
not run after `setPayload` alone, and it is triggered (exactly once) by the
first `loadHeader` request; later requests reuse the memoized buffer. -/
theorem setPayload_frame_and_lazy_decompress (env : WorkerEnvM) (st : WorkerStateM)
    (p : String) (msgs : List WorkerMessageM) :
    (p ≠ "" → workerOnMessage env st ⟨"setPayload", none, none, some p⟩ =
      ({ st with payload := some p }, some (.header none))) ∧
    (runWorker env initWorkerState msgs).decompressCount ≤ 1 ∧
    (p ≠ "" →
      (runWorker env initWorkerState [⟨"setPayload", none, none, some p⟩]).decompressCount = 0 ∧
      (runWorker env initWorkerState
        [⟨"setPayload", none, none, some p⟩,
         ⟨"loadHeader", none, none, none⟩]).decompressCount = 1) := by
  have hset : ∀ q : String, q ≠ "" → ∀ s : WorkerStateM,
      workerOnMessage env s ⟨"setPayload", none, none, some q⟩ =
        ({ s with payload := some q }, some (.header none)) := by
    intro q hq s
    unfold workerOnMessage
    simp [jsTruthyStr, hq]
  refine ⟨fun hp => hset p hp st, ?_, fun hp => ⟨?_, ?_⟩⟩
  · have h := runWorker_count env msgs initWorkerState (by rfl)
    unfold workerCountInv at h
    rw [h]
    cases (runWorker env initWorkerState msgs).buffer <;> simp
  · simp only [runWorker]
    rw [hset p ‹p ≠ ""› initWorkerState]
    rfl
  · simp only [runWorker]
    rw [hset p ‹p ≠ ""› initWorkerState]
    simp only [workerOnMessage, initWorkerState]
    norm_num [jsTruthyStr]
    simpa using handleLoad_count_succ env _ p none 0

/-- A concrete worker environment for the C7 witness. -/
def c7Env : WorkerEnvM := ⟨fun _ => [0, 0, 0, 0], fun _ => none⟩

/-- Witness for `setPayload_frame_and_lazy_decompress` at a concrete
payload, message list and environment. -/
theorem setPayload_frame_witness :
    workerOnMessage c7Env initWorkerState ⟨"setPayload", none, none, some "AA"⟩ =
      ({ initWorkerState with payload := some "AA" }, some (.header none)) ∧
    (runWorker c7Env initWorkerState [⟨"loadHeader", none, none, none⟩]).decompressCount ≤ 1 ∧
    (runWorker c7Env initWorkerState [⟨"setPayload", none, none, some "AA"⟩]).decompressCount = 0 ∧
    (runWorker c7Env initWorkerState
      [⟨"setPayload", none, none, some "AA"⟩,
       ⟨"loadHeader", none, none, none⟩]).decompressCount = 1 := by
  have h := setPayload_frame_and_lazy_decompress c7Env initWorkerState "AA"
    [⟨"loadHeader", none, none, none⟩]
  exact ⟨h.1 (by decide), h.2.1, (h.2.2 (by decide)).1, (h.2.2 (by decide)).2⟩

theorem sum_take_mono (l : List ℕ) : ∀ a b : ℕ, a ≤ b → (l.take a).sum ≤ (l.take b).sum := by
  induction l with
  | nil => intro a b _; simp
  | cons x xs ih =>
      intro a b hab
      cases a with
      | zero => simp
      | succ a =>
          cases b with
          | zero => omega
          | succ b =>
              simp only [List.take_succ_cons, List.sum_cons]
              exact Nat.add_le_add_left (ih a b (by omega)) x

theorem sum_take_succ_getElem (l : List ℕ) : ∀ (k x : ℕ), l[k]? = some x →
    (l.take (k + 1)).sum = (l.take k).sum + x := by
  induction l with
  | nil => intro k x h; simp at h
  | cons y ys ih =>
      intro k x h
      cases k with
      | zero =>
          simp only [List.getElem?_cons_zero, Option.some.injEq] at h
          subst h
          simp
      | succ k =>
          simp only [List.getElem?_cons_succ] at h
          simp only [List.take_succ_cons, List.sum_cons, ih k x h]
          omega

theorem packColumnsAux_offset (env : JsEnv) :
    ∀ (cols : List (String × InputColumn)) (off k : ℕ) (d : ColumnDesc),
      ((packColumnsAux env cols off).1)[k]? = some d →
      d.offset = off + (((packColumnsAux env cols off).1.take k).map (fun x => 4 * x.length)).sum := by
  intro cols
  induction cols with
  | nil => intro off k d h; simp [packColumnsAux] at h
  | cons kc rest ih =>
      intro off k d h
      cases k with
      | zero =>
          simp only [packColumnsAux, List.getElem?_cons_zero, Option.some.injEq] at h
          subst h
          simp
      | succ k =>
          simp only [packColumnsAux, List.getElem?_cons_succ] at h
          have hih := ih (off + (encodeColumn env kc.2.dtype (kc.2.data.getD [])).2.length) k d h
          simp only [packColumnsAux, List.take_succ_cons, List.map_cons, List.sum_cons]
          rw [hih, encodeColumn_snd_length]
          omega

theorem packColumnsAux_mono (env : JsEnv) (cols : List (String × InputColumn)) (p q : ℕ)
    (dp dq : ColumnDesc)
    (hp : ((packColumnsAux env cols 0).1)[p]? = some dp)
    (hq : ((packColumnsAux env cols 0).1)[q]? = some dq)
    (hpq : p < q) : dp.offset + 4 * dp.length ≤ dq.offset := by
  have h1 := packColumnsAux_offset env cols 0 p dp hp
  have h2 := packColumnsAux_offset env cols 0 q dq hq
  have hmap : ∀ n : ℕ,
      (((packColumnsAux env cols 0).1.take n).map (fun x => 4 * x.length)).sum =
        (((packColumnsAux env cols 0).1.map (fun x => 4 * x.length)).take n).sum := by
    intro n; rw [List.map_take]
  have hgetm : ((packColumnsAux env cols 0).1.map (fun x => 4 * x.length))[p]? =
      some (4 * dp.length) := by
    rw [List.getElem?_map, hp]; rfl
  have hsucc := sum_take_succ_getElem ((packColumnsAux env cols 0).1.map (fun x => 4 * x.length))
    p (4 * dp.length) hgetm
  have hmono := sum_take_mono ((packColumnsAux env cols 0).1.map (fun x => 4 * x.length))
    (p + 1) q hpq
  rw [hmap p] at h1
  rw [hmap q] at h2
  omega

/-- Claim C3 — tight packing and disjoint ranges.  For every input dataset,
each header descriptor's `offset` is the running total of the byte lengths
of the previously packed columns (the element width is 4 bytes for every
dtype, so each prior column contributes `4 * length` bytes); consequently
the byte ranges `[offset, offset + 4*length)` of any two distinct
descriptors in one header are disjoint. -/
theorem offsets_running_total_disjoint (env : JsEnv) (data : InputData) (i j : ℕ)
    (di dj : ColumnDesc)
    (hi : ((packColumnsAux env (flattenInput data) 0).1)[i]? = some di)
    (hj : ((packColumnsAux env (flattenInput data) 0).1)[j]? = some dj)
    (hne : i ≠ j) :
    di.offset =
      (((packColumnsAux env (flattenInput data) 0).1.take i).map (fun x => 4 * x.length)).sum ∧
    ∀ b : ℕ, ¬ (di.offset ≤ b ∧ b < di.offset + 4 * di.length ∧
                dj.offset ≤ b ∧ b < dj.offset + 4 * dj.length) := by
  constructor
  · have h := packColumnsAux_offset env (flattenInput data) 0 i di hi
    simpa using h
  · intro b hb
    rcases Nat.lt_or_ge i j with hij | hij
    · have := packColumnsAux_mono env (flattenInput data) i j di dj hi hj hij
      omega
    · have hji : j < i := by omega
      have := packColumnsAux_mono env (flattenInput data) j i dj di hj hi hji
      omega

/-- A concrete two-column input for the C3 witness. -/
def c3Data : InputData :=
  [("s", some [{ name := "x", dtype := none, data := some [JsVal.num 1, JsVal.num 2],
                 categories := none },
               { name := "y", dtype := none, data := some [JsVal.num 3],
                 categories := none }])]

/-- Witness for `offsets_running_total_disjoint` on a concrete two-column
pack (`x` at offset 0 with 2 elements, `y` at offset 8 with 1 element). -/
theorem offsets_running_total_disjoint_witness :
    (⟨"x", "s", "int32", 0, 2, none⟩ : ColumnDesc).offset =
      (((packColumnsAux jsEnvTriv (flattenInput c3Data) 0).1.take 0).map
        (fun x => 4 * x.length)).sum ∧
    ∀ b : ℕ, ¬ ((⟨"x", "s", "int32", 0, 2, none⟩ : ColumnDesc).offset ≤ b ∧
        b < (⟨"x", "s", "int32", 0, 2, none⟩ : ColumnDesc).offset +
          4 * (⟨"x", "s", "int32", 0, 2, none⟩ : ColumnDesc).length ∧
        (⟨"y", "s", "int32", 8, 1, none⟩ : ColumnDesc).offset ≤ b ∧
        b < (⟨"y", "s", "int32", 8, 1, none⟩ : ColumnDesc).offset +
          4 * (⟨"y", "s", "int32", 8, 1, none⟩ : ColumnDesc).length) :=
  offsets_running_total_disjoint jsEnvTriv c3Data 0 1
    ⟨"x", "s", "int32", 0, 2, none⟩ ⟨"y", "s", "int32", 8, 1, none⟩
    (by decide) (by decide) (by decide)

theorem buildUniqAux_append (xs : List JsVal) : ∀ (acc ys : List JsVal),
    buildUniqAux acc (xs ++ ys) = buildUniqAux (buildUniqAux acc xs) ys := by
  induction xs with
  | nil => intro acc ys; rfl
  | cons v vs ih =>
      intro acc ys
      by_cases h : v ≠ JsVal.null ∧ v ∉ acc
      · simp only [List.cons_append, buildUniqAux, if_pos h]
        exact ih _ _
      · simp only [List.cons_append, buildUniqAux, if_neg h]
        exact ih _ _

theorem buildUniqAux_prefix (vs : List JsVal) : ∀ acc : List JsVal,
    ∃ l, buildUniqAux acc vs = acc ++ l := by
  induction vs with
  | nil => intro acc; exact ⟨[], by simp [buildUniqAux]⟩
  | cons v vs ih =>
      intro acc
      by_cases h : v ≠ JsVal.null ∧ v ∉ acc
      · obtain ⟨l, hl⟩ := ih (acc ++ [v])
        refine ⟨[v] ++ l, ?_⟩
        simp only [buildUniqAux, if_pos h, hl, List.append_assoc]
      · obtain ⟨l, hl⟩ := ih acc
        exact ⟨l, by simp only [buildUniqAux, if_neg h, hl]⟩

theorem mem_buildUniqAux (vs : List JsVal) : ∀ (acc : List JsVal) (v : JsVal),
    v ∈ buildUniqAux acc vs → v ∈ acc ∨ v ≠ JsVal.null := by
  induction vs with
  | nil =>
      intro acc v h
      simp only [buildUniqAux] at h
      exact Or.inl h
  | cons w ws ih =>
      intro acc v h
      by_cases hw : w ≠ JsVal.null ∧ w ∉ acc
      · simp only [buildUniqAux, if_pos hw] at h
        rcases ih _ v h with hacc | hne
        · rcases List.mem_append.mp hacc with h1 | h2
          · exact Or.inl h1
          · right
            rw [List.mem_singleton] at h2
            subst h2
            exact hw.1
        · exact Or.inr hne
      · simp only [buildUniqAux, if_neg hw] at h
        exact ih _ v h

theorem buildUniqAux_head_fix (post : List JsVal) : ∀ (c0 : JsVal) (tl : List JsVal),
    buildUniqAux [] post = c0 :: tl → buildUniqAux [c0] post = c0 :: tl := by
  induction post with
  | nil => intro c0 tl h; simp [buildUniqAux] at h
  | cons v vs ih =>
      intro c0 tl h
      by_cases hv : v ≠ JsVal.null ∧ v ∉ ([] : List JsVal)
      · simp only [buildUniqAux, if_pos hv, List.nil_append] at h
        obtain ⟨l, hl⟩ := buildUniqAux_prefix vs [v]
        rw [hl] at h
        simp only [List.singleton_append] at h
        injection h with h1 h2
        subst h1
        subst h2
        have hcond : ¬ (v ≠ JsVal.null ∧ v ∉ [v]) := fun hc => hc.2 (List.mem_singleton_self v)
        simp only [buildUniqAux, if_neg hcond]
        simpa using hl
      · have hvn : v = JsVal.null := by
          by_contra hne
          exact hv ⟨hne, by simp⟩
        simp only [buildUniqAux, if_neg hv] at h
        have hres := ih c0 tl h
        have hcond : ¬ (v ≠ JsVal.null ∧ v ∉ [c0]) := fun hc => hc.1 hvn
        simp only [buildUniqAux, if_neg hcond]
        exact hres

theorem list_set_decomp {α : Type} (l : List α) : ∀ (i : ℕ) (a : α), i < l.length →
    l.set i a = l.take i ++ a :: l.drop (i + 1) := by
  induction l with
  | nil => intro i a h; simp at h
  | cons x xs ih =>
      intro i a h
      cases i with
      | zero => simp
      | succ i =>
          simp only [List.set_cons_succ, List.take_succ_cons, List.drop_succ_cons,
            List.cons_append, List.cons.injEq, true_and]
          exact ih i a (by simpa using h)

theorem buildUniq_set_head (values : List JsVal) (i : ℕ) (c0 : JsVal) (tl : List JsVal)
    (hi : values[i]? = some JsVal.null) (hu : buildUniq values = c0 :: tl) :
    buildUniq (values.set i c0) = c0 :: tl := by
  obtain ⟨hlen, hget⟩ := List.getElem?_eq_some_iff.mp hi
  have hdecomp : values = values.take i ++ JsVal.null :: values.drop (i + 1) := by
    conv_lhs => rw [← List.take_append_drop i values]
    rw [List.drop_eq_getElem_cons hlen, hget]
  have hset : values.set i c0 = values.take i ++ c0 :: values.drop (i + 1) :=
    list_set_decomp values i c0 hlen
  have hA : buildUniq values =
      buildUniqAux (buildUniqAux [] (values.take i)) (values.drop (i + 1)) := by
    conv_lhs => rw [hdecomp]
    rw [buildUniq, buildUniqAux_append]
    have hnull : buildUniqAux (buildUniqAux [] (values.take i))
        (JsVal.null :: values.drop (i + 1)) =
        buildUniqAux (buildUniqAux [] (values.take i)) (values.drop (i + 1)) := by
      simp only [buildUniqAux]
      rw [if_neg]
      intro hc
      exact hc.1 rfl
    exact hnull
  have hA2 : buildUniq (values.set i c0) =
      buildUniqAux (buildUniqAux [] (values.take i)) (c0 :: values.drop (i + 1)) := by
    rw [hset, buildUniq, buildUniqAux_append]
  rw [hA] at hu
  rw [hA2]
  cases hAe : buildUniqAux [] (values.take i) with
  | nil =>
      rw [hAe] at hu
      have hc0 : c0 ≠ JsVal.null := by
        have hmem : c0 ∈ buildUniqAux ([] : List JsVal) (values.drop (i + 1)) := by
          rw [hu]; exact List.mem_cons_self _ _
        rcases mem_buildUniqAux (values.drop (i + 1)) [] c0 hmem with h | h
        · simp at h
        · exact h
      have hfix := buildUniqAux_head_fix (values.drop (i + 1)) c0 tl hu
      simp only [buildUniqAux]
      rw [if_pos ⟨hc0, by simp⟩]
      simpa using hfix
  | cons a A2 =>
      have hu2 := hu
      rw [hAe] at hu2
      obtain ⟨l, hl⟩ := buildUniqAux_prefix (values.drop (i + 1)) (a :: A2)
      have ha : a = c0 := by
        rw [hl, List.cons_append] at hu2
        injection hu2 with h1 _
      simp only [buildUniqAux]
      rw [if_neg]
      · exact hu2
      · intro hc
        exact hc.2 (by rw [← ha]; exact List.mem_cons_self _ _)

/-- Claim C10 — categorical null handling.  The encoder maps a `null` value
to `null` (no reserved sentinel index), and the packer's `Int32Array`
conversion then coerces that `null` to `0` — so after packing, a missing
categorical value is indistinguishable from a value equal to the first
(index-0) category label: replacing any `null` entry by the first-seen
category label changes the logical input but leaves the categories list and
the packed int32 index data byte-identical. -/
theorem categorical_null_packs_to_zero (env : JsEnv) (values : List JsVal) (i : ℕ)
    (hi : values[i]? = some JsVal.null) :
    (categoricalIndices values)[i]? = some none ∧
    (packedCatIndexInts env values)[i]? = some 0 ∧
    ∀ (c0 : JsVal) (tl : List JsVal), buildUniq values = c0 :: tl →
      values.set i c0 ≠ values ∧
      buildUniq (values.set i c0) = buildUniq values ∧
      packedCatIndexInts env (values.set i c0) = packedCatIndexInts env values := by
  have hlen : i < values.length := (List.getElem?_eq_some_iff.mp hi).1
  refine ⟨?_, ?_, ?_⟩
  · simp [categoricalIndices, List.getElem?_map, hi]
  · simp [packedCatIndexInts, categoricalIndices, List.getElem?_map, hi, idxToJsVal, jsToInt32]
  · intro c0 tl hu
    have hc0 : c0 ≠ JsVal.null := by
      have hmem : c0 ∈ buildUniq values := by
        rw [hu]; exact List.mem_cons_self _ _
      rcases mem_buildUniqAux values [] c0 hmem with h | h
      · simp at h
      · exact h
    have hbu : buildUniq (values.set i c0) = buildUniq values := by
      rw [buildUniq_set_head values i c0 tl hi hu, hu]
    refine ⟨?_, hbu, ?_⟩
    · intro heq
      have hg := congrArg (fun l => l[i]?) heq
      simp only [List.getElem?_set_self hlen, hi, Option.some.injEq] at hg
      exact hc0 hg
    · apply List.ext_getElem?
      intro n
      by_cases hn : n = i
      · subst hn
        simp only [packedCatIndexInts, categoricalIndices, hbu, List.getElem?_map,
          List.getElem?_set_self hlen, hi, Option.map_some]
        simp [hc0, hu, idxOf, idxToJsVal, jsToInt32, jsTruncQ, toInt32]
        decide
      · simp only [packedCatIndexInts, categoricalIndices, hbu, List.getElem?_map,
          List.getElem?_set_ne (fun h => hn h.symm)]

/-- Witness for `categorical_null_packs_to_zero` on the column
`["a", null]`: the null entry packs to index `0` and replacing it by the
index-0 label `"a"` gives a different input with identical packed output. -/
theorem categorical_null_packs_to_zero_witness :
    (categoricalIndices [JsVal.str "a", JsVal.null])[1]? = some none ∧
    (packedCatIndexInts jsEnvTriv [JsVal.str "a", JsVal.null])[1]? = some 0 ∧
    [JsVal.str "a", JsVal.null].set 1 (JsVal.str "a") ≠ [JsVal.str "a", JsVal.null] ∧
    buildUniq ([JsVal.str "a", JsVal.null].set 1 (JsVal.str "a")) =
      buildUniq [JsVal.str "a", JsVal.null] ∧
    packedCatIndexInts jsEnvTriv ([JsVal.str "a", JsVal.null].set 1 (JsVal.str "a")) =
      packedCatIndexInts jsEnvTriv [JsVal.str "a", JsVal.null] := by
  have h := categorical_null_packs_to_zero jsEnvTriv [JsVal.str "a", JsVal.null] 1 (by decide)
  have h3 := h.2.2 (JsVal.str "a") [] (by decide)
  exact ⟨h.1, h.2.1, h3.1, h3.2.1, h3.2.2⟩

end SIQC
